import Mathlib

/-!
# Verification of the osmdata geometry-assembly engine (`src/osmdata.cpp`)

This file gives a shallow embedding of the C++ conversion engine in
`src/osmdata.cpp` (functions `get_osm_relations`, `get_osm_ways`,
`get_osm_nodes`, and the way-partition loop of `rcpp_osmdata_sf`) and proves
the specification claims about it.

Modelling conventions:
* `osmid_t` (a 64-bit integer id) is modelled as `Int`; coordinates are
  carried opaquely as `Int` (the engine never computes with them, it only
  copies them from the node map into the output).
* `std::map` / `std::set` iteration is modelled by lists sorted strictly
  ascending (`List.Pairwise (· < ·)` on the keys); `std::set::insert` is
  modelled by the order-preserving `setIns` below.
* An Rcpp `CharacterMatrix` row initialised with `NA_STRING` is modelled as a
  `List (Option String)` (`none` = NA); the bounds-checked matrix cell write
  `kv_mat (count, ni)` is modelled by `writeCell`, which errors when the
  column index is out of range (the write an absent tag key produces, since
  `std::distance (begin, find (key))` is then the set size).
* Fallible paths return `Except String`; an `Except.error` result carries no
  partial output, matching a C++ `throw` aborting before anything is
  returned to the caller.

Functions living in headers that are not part of the sources
(`trace_osm.h`, `convert_osm_rcpp.h`, `cleanup.h`) are modelled from the
specification text; each such definition's doc comment starts with
`Modelled from the spec:`.
-/

/-- One OSM node: coordinates plus its tag map (`key_val`).  Tag maps are
association lists with distinct keys (they are `std::map`s in the source). -/
structure Node where
  lon : Int
  lat : Int
  key_val : List (String × String)
  deriving Repr, DecidableEq

/-- One OSM way: the ordered node-id sequence and the tag map. -/
structure OneWay where
  nodes : List Int
  key_val : List (String × String)
  deriving Repr, DecidableEq

/-- One OSM relation: id, polygon-classification flag (`ispoly`), the ordered
`(member way id, role string)` sequence, and its tag map. -/
structure Relation where
  id : Int
  ispoly : Bool
  ways : List (Int × String)
  key_val : List (String × String)
  deriving Repr, DecidableEq

/-- Ordered insertion into a strictly sorted duplicate-free list: the model of
`std::set::insert`. -/
def setIns {α : Type} [LinearOrder α] (x : α) : List α → List α
  | [] => [x]
  | y :: ys => if x < y then x :: y :: ys else if x = y then y :: ys else y :: setIns x ys

/-- Association-list lookup, modelling `std::map::find` on the node and way
maps (keys are distinct). -/
def lookupA {β : Type} (m : List (Int × β)) (k : Int) : Option β :=
  (m.find? (fun p => p.1 == k)).map Prod.snd

/-- Look a tag key up in a tag map (first matching entry, as `std::map::find`
on a map with distinct keys). -/
def lookupTag (kv : List (String × String)) (k : String) : Option String :=
  (kv.find? (fun p => p.1 == k)).map Prod.snd

/-- The Attribute Row of one entity under a kind's `UniqueVals` key ordering:
one cell per known key, the tag value where the entity carries the key and
`none` (NA) elsewhere. -/
def makeKvRow (keys : List String) (kv : List (String × String)) :
    List (Option String) :=
  keys.map (fun k => lookupTag kv k)

/-- `std::distance (unique_vals.k_point.begin (), unique_vals.k_point.find (key))`
on the sorted set represented by `keys` (src/osmdata.cpp lines 408–409): the
key's column index when present, and `keys.length` (i.e.
`distance (begin, end)`) when absent. -/
def keyIndex (keys : List String) (k : String) : Nat :=
  keys.indexOf k

/-- One bounds-checked matrix cell write `kv_mat (count, ni) = value` within a
row: an out-of-range column index errors (the `UnknownKeyError` of the
spec). -/
def writeCell (row : List (Option String)) (i : Nat) (v : String) :
    Except String (List (Option String)) :=
  if i < row.length then .ok (row.set i (some v)) else .error "UnknownKeyError"

/-- The tag-writing loop of `get_osm_nodes` (src/osmdata.cpp lines 404–411)
folded over one entity's whole tag map, starting from a given row. -/
def foldWrites (keys : List String) (row : List (Option String))
    (kv : List (String × String)) : Except String (List (Option String)) :=
  kv.foldlM (fun r p => writeCell r (keyIndex keys p.1) p.2) row

/-- The attribute row built by `get_osm_nodes` for one entity: an `NA_STRING`
initialised row of width `|UniqueVals|`, then one write per tag at the key's
column index. -/
def buildNodeRow (keys : List String) (kv : List (String × String)) :
    Except String (List (Option String)) :=
  foldWrites keys (List.replicate keys.length none) kv

/-- Helper for the row-builder proofs: the row obtained from `row` by
overriding every column whose key carries a tag in `kv`. -/
def mergeRow (keys : List String) (row : List (Option String))
    (kv : List (String × String)) : List (Option String) :=
  List.zipWith (fun k c => match lookupTag kv k with | some v => some v | none => c)
    keys row

/-- Modelled from the spec: `trace_way` (trace_osm.h, not under src/).
Resolves one way's node-id sequence through the node map to the parallel
longitude / latitude / row-label sequences (§4.1); a node id absent from the
node map is skipped (§4.1/§7 missing-node policy: drop the point). -/
def trace_way (ways : List (Int × OneWay)) (nodes : List (Int × Node))
    (wid : Int) : List Int × List Int × List String :=
  match lookupA ways wid with
  | none => ([], [], [])
  | some w =>
      let pts := w.nodes.filterMap
        (fun nid => (lookupA nodes nid).map (fun nd => (nd.lon, nd.lat, toString nid)))
      (pts.map (fun p => p.1), pts.map (fun p => p.2.1), pts.map (fun p => p.2.2))

/-- Modelled from the spec: `trace_multipolygon` (trace_osm.h, not under
src/).  One ring per member way, in the relation's declared member order
(§4.4); each ring's member way id becomes its id entry.  Returns
`(lon_vec, lat_vec, rowname_vec, ids_mp)`. -/
def trace_multipolygon (r : Relation) (ways : List (Int × OneWay))
    (nodes : List (Int × Node)) :
    List (List Int) × List (List Int) × List (List String) × List String :=
  (r.ways.map (fun m => (trace_way ways nodes m.1).1),
   r.ways.map (fun m => (trace_way ways nodes m.1).2.1),
   r.ways.map (fun m => (trace_way ways nodes m.1).2.2),
   r.ways.map (fun m => toString m.1))

/-- Modelled from the spec: `trace_multilinestring` (trace_osm.h, not under
src/).  For one role: all member ways carrying that role, traced in the
relation's declared member order (§4.3); the geometry's id entries are those
member way ids.  Returns `(lon_vec, lat_vec, rowname_vec, ids_ls)`. -/
def trace_multilinestring (r : Relation) (role : String)
    (ways : List (Int × OneWay)) (nodes : List (Int × Node)) :
    List (List Int) × List (List Int) × List (List String) × List Int :=
  let ms := (r.ways.filter (fun m => m.2 == role)).map (fun m => m.1)
  (ms.map (fun w => (trace_way ways nodes w).1),
   ms.map (fun w => (trace_way ways nodes w).2.1),
   ms.map (fun w => (trace_way ways nodes w).2.2),
   ms)

/-- The `roles_set` of one relation (src/osmdata.cpp lines 196–202, also
158–165): the distinct role strings among the relation's way members, in
`std::set` (ascending lexicographic) order. -/
def relRoles (r : Relation) : List String :=
  r.ways.foldl (fun s m => setIns m.2 s) []

/-- The row label of one role's multilinestring (src/osmdata.cpp lines
207–213): `"{relation-id}-(no role)"` for the empty role, else
`"{relation-id}-{role}"`. -/
def lsLabel (r : Relation) (role : String) : String :=
  if role = "" then toString r.id ++ "-(no role)"
  else toString r.id ++ "-" ++ role

/-- Modelled from the spec: `get_value_mat_rel` (convert_osm_rcpp.h, not
under src/): writes the relation's attribute row, cells taken from the
relation's tag map under the relation-kind `UniqueVals` column order, NA
elsewhere (§4.2; §4.3 "a COPY of the parent relation's attribute row"). -/
def get_value_mat_rel (k_rel : List String) (r : Relation) :
    List (Option String) :=
  makeKvRow k_rel r.key_val

/-- The parallel collections accumulated by the main loop of
`get_osm_relations` (src/osmdata.cpp lines 144–225). -/
structure RelAcc where
  rel_id_mp : List String
  lon_arr_mp : List (List (List Int))
  lat_arr_mp : List (List (List Int))
  rowname_arr_mp : List (List (List String))
  id_vec_mp : List (List String)
  kv_mp : List (List (Option String))
  rel_id_ls : List String
  lon_arr_ls : List (List (List Int))
  lat_arr_ls : List (List (List Int))
  rowname_arr_ls : List (List (List String))
  id_vec_ls : List (List Int)
  kv_ls : List (List (Option String))
  deriving Repr, DecidableEq

/-- The empty accumulator (all collections start empty). -/
def RelAcc.empty : RelAcc := ⟨[], [], [], [], [], [], [], [], [], [], [], []⟩

/-- Field-wise concatenation of accumulators. -/
def RelAcc.app (a b : RelAcc) : RelAcc :=
  ⟨a.rel_id_mp ++ b.rel_id_mp, a.lon_arr_mp ++ b.lon_arr_mp,
   a.lat_arr_mp ++ b.lat_arr_mp, a.rowname_arr_mp ++ b.rowname_arr_mp,
   a.id_vec_mp ++ b.id_vec_mp, a.kv_mp ++ b.kv_mp,
   a.rel_id_ls ++ b.rel_id_ls, a.lon_arr_ls ++ b.lon_arr_ls,
   a.lat_arr_ls ++ b.lat_arr_ls, a.rowname_arr_ls ++ b.rowname_arr_ls,
   a.id_vec_ls ++ b.id_vec_ls, a.kv_ls ++ b.kv_ls⟩

/-- One iteration of the main relation loop of `get_osm_relations`
(src/osmdata.cpp lines 177–225): a polygon relation appends one entry to each
`_mp` collection; any other relation appends one entry per distinct member
role to each `_ls` collection (nothing when it has no members). -/
def relStep (ways : List (Int × OneWay)) (nodes : List (Int × Node))
    (k_rel : List String) (acc : RelAcc) (r : Relation) : RelAcc :=
  if r.ispoly then
    { acc with
      rel_id_mp := acc.rel_id_mp ++ [toString r.id]
      lon_arr_mp := acc.lon_arr_mp ++ [(trace_multipolygon r ways nodes).1]
      lat_arr_mp := acc.lat_arr_mp ++ [(trace_multipolygon r ways nodes).2.1]
      rowname_arr_mp := acc.rowname_arr_mp ++ [(trace_multipolygon r ways nodes).2.2.1]
      id_vec_mp := acc.id_vec_mp ++ [(trace_multipolygon r ways nodes).2.2.2]
      kv_mp := acc.kv_mp ++ [get_value_mat_rel k_rel r] }
  else
    { acc with
      rel_id_ls := acc.rel_id_ls ++ (relRoles r).map (lsLabel r)
      lon_arr_ls := acc.lon_arr_ls ++
        (relRoles r).map (fun ro => (trace_multilinestring r ro ways nodes).1)
      lat_arr_ls := acc.lat_arr_ls ++
        (relRoles r).map (fun ro => (trace_multilinestring r ro ways nodes).2.1)
      rowname_arr_ls := acc.rowname_arr_ls ++
        (relRoles r).map (fun ro => (trace_multilinestring r ro ways nodes).2.2.1)
      id_vec_ls := acc.id_vec_ls ++
        (relRoles r).map (fun ro => (trace_multilinestring r ro ways nodes).2.2.2)
      kv_ls := acc.kv_ls ++ (relRoles r).map (fun _ => get_value_mat_rel k_rel r) }

/-- The whole-input contribution, relation by relation (used to state what the
loop accumulates). -/
def relsContrib (ways : List (Int × OneWay)) (nodes : List (Int × Node))
    (k_rel : List String) : List Relation → RelAcc
  | [] => RelAcc.empty
  | r :: rs => (relStep ways nodes k_rel RelAcc.empty r).app
      (relsContrib ways nodes k_rel rs)

/-- Two-level pairwise length agreement between two nested collections. -/
def check2 {α β : Type} (a : List (List α)) (b : List (List β)) : Bool :=
  a.length == b.length && (List.zip a b).all (fun p => p.1.length == p.2.length)

/-- Three-level pairwise length agreement between two nested collections. -/
def check3 {α β : Type} (a : List (List (List α))) (b : List (List (List β))) : Bool :=
  a.length == b.length && (List.zip a b).all (fun p => check2 p.1 p.2)

/-- Modelled from the spec: `check_geom_arrs` (cleanup.h, not under src/):
validates the longitude / latitude / row-label collections for pairwise equal
lengths at every nesting level, failing with `StructuralMismatchError`
otherwise (§4.5). -/
def check_geom_arrs {α β : Type} (lon lat : List (List (List α)))
    (rn : List (List (List β))) : Except String Unit :=
  if check3 lon lat && check3 lon rn then .ok ()
  else .error "StructuralMismatchError"

/-- Modelled from the spec: `check_id_arr` (cleanup.h, not under src/): the
outer geometry collection and the id collection must have equal lengths, and
each geometry's id sequence length must equal its component count (§4.5). -/
def check_id_arr {α β : Type} (arr : List (List (List α)))
    (ids : List (List β)) : Except String Unit :=
  if arr.length == ids.length &&
      (List.zip arr ids).all (fun p => p.1.length == p.2.length)
  then .ok () else .error "StructuralMismatchError"

/-- The result of `get_osm_relations`: the accumulated geometry collections
with row labels and ids, and the two attribute tables, where `none` models
the `R_NilValue` returned for an empty collection (src/osmdata.cpp lines
265–281) and `some (labels, rows)` models a real data frame with its row
dimnames. -/
structure RelOut where
  geoms : RelAcc
  kv_df_mp : Option (List String × List (List (Option String)))
  kv_df_ls : Option (List String × List (List (Option String)))
  deriving Repr, DecidableEq

/-- `get_osm_relations` (src/osmdata.cpp lines 129–298): run the relation
loop, validate all parallel collections (lines 227–230), then assemble the
output, with `NULL` attribute tables for empty collections. -/
def get_osm_relations (rels : List Relation) (nodes : List (Int × Node))
    (ways : List (Int × OneWay)) (k_rel : List String) :
    Except String RelOut := do
  let a := rels.foldl (relStep ways nodes k_rel) RelAcc.empty
  check_geom_arrs a.lon_arr_mp a.lat_arr_mp a.rowname_arr_mp
  check_geom_arrs a.lon_arr_ls a.lat_arr_ls a.rowname_arr_ls
  check_id_arr a.lon_arr_ls a.id_vec_ls
  check_id_arr a.lon_arr_mp a.id_vec_mp
  .ok { geoms := a
        kv_df_ls := if a.rel_id_ls.length > 0 then some (a.rel_id_ls, a.kv_ls)
          else none
        kv_df_mp := if a.rel_id_mp.length > 0 then some (a.rel_id_mp, a.kv_mp)
          else none }

/-- Modelled from the spec: `trace_way_nmat` (convert_osm_rcpp.h, not under
src/): one way's coordinate matrix, rows in node-sequence order (§4.1). -/
def trace_way_nmat (ways : List (Int × OneWay)) (nodes : List (Int × Node))
    (wid : Int) : List (Int × Int) :=
  List.zip (trace_way ways nodes wid).1 (trace_way ways nodes wid).2.1

/-- Modelled from the spec: `get_value_mat_way` (convert_osm_rcpp.h, not
under src/): one way's attribute row under the way-kind `UniqueVals` column
order (§4.2). -/
def get_value_mat_way (k_way : List String) (ways : List (Int × OneWay))
    (wid : Int) : List (Option String) :=
  makeKvRow k_way (((lookupA ways wid).map OneWay.key_val).getD [])

/-- The result of `get_osm_ways`: row labels (way ids as strings), traced
geometries, and the attribute rows. -/
structure WaysOut where
  waynames : List String
  geoms : List (List (Int × Int))
  kv : List (List (Option String))
  geom_type : String
  deriving Repr, DecidableEq

/-- `get_osm_ways` (src/osmdata.cpp lines 314–368): reject an unsupported
geometry kind or a caller list whose size differs from the id set before the
loop; otherwise trace every way id in (set) order. -/
def get_osm_ways (wayListSize : Nat) (way_ids : List Int)
    (ways : List (Int × OneWay)) (nodes : List (Int × Node))
    (k_way : List String) (geom_type : String) : Except String WaysOut :=
  if ¬(geom_type = "POLYGON" ∨ geom_type = "LINESTRING") then
    .error "geom_type must be POLYGON or LINESTRING"
  else if wayListSize ≠ way_ids.length then
    .error "ways and IDs must have same lengths"
  else
    .ok { waynames := way_ids.map (fun w => toString w)
          geoms := way_ids.map (fun w => trace_way_nmat ways nodes w)
          kv := way_ids.map (fun w => get_value_mat_way k_way ways w)
          geom_type := geom_type }

/-- The result of `get_osm_nodes`: point coordinates, row labels (node ids as
strings), and the attribute rows. -/
structure NodesOut where
  pts : List (Int × Int)
  ptnames : List String
  kv : List (List (Option String))
  deriving Repr, DecidableEq

/-- `get_osm_nodes` (src/osmdata.cpp lines 381–425): reject a caller list
whose size differs from the node count before the loop; otherwise emit one
point, one row label and one attribute row per node in node-map order.  A tag
key missing from `UniqueVals` aborts the whole call (see `writeCell`). -/
def get_osm_nodes (ptListSize : Nat) (nodes : List (Int × Node))
    (k_point : List String) : Except String NodesOut :=
  if ptListSize ≠ nodes.length then
    .error "points must have same size as nodes"
  else do
    let rows ← nodes.mapM (fun n => buildNodeRow k_point n.2.key_val)
    .ok { pts := nodes.map (fun n => (n.2.lon, n.2.lat))
          ptnames := nodes.map (fun n => toString n.1)
          kv := rows }

/-- The way-classification test of `rcpp_osmdata_sf` (src/osmdata.cpp line
509): `nodes.front () == nodes.back ()` (meaningful for a non-empty node
sequence, as `front`/`back` require). -/
def isClosedWay (w : OneWay) : Bool := w.nodes.head? == w.nodes.getLast?

/-- The spec's closed-ness (§3): first id == last id AND length > 1. -/
def specClosed (w : OneWay) : Bool :=
  (w.nodes.head? == w.nodes.getLast?) && decide (w.nodes.length > 1)

/-- One iteration of the way-partition loop of `rcpp_osmdata_sf`
(src/osmdata.cpp lines 507–515): a closed way id goes into `poly_ways`, any
other into `non_poly_ways` (each an ordered `std::set`). -/
def splitStep (acc : List Int × List Int) (wy : Int × OneWay) :
    List Int × List Int :=
  if isClosedWay wy.2 then
    (if acc.1.contains wy.1 then acc.1 else setIns wy.1 acc.1, acc.2)
  else
    (acc.1, if acc.2.contains wy.1 then acc.2 else setIns wy.1 acc.2)

/-- The poly / non-poly way partition of `rcpp_osmdata_sf` (src/osmdata.cpp
lines 506–515). -/
def splitWays (ways : List (Int × OneWay)) : List Int × List Int :=
  ways.foldl splitStep ([], [])

/-- The way-extraction phase of `rcpp_osmdata_sf` (src/osmdata.cpp lines
505–525): partition the ways, then extract the polygon set as `"POLYGON"`
and the rest as `"LINESTRING"`, each with a caller list preallocated to the
set's size. -/
def rcpp_osmdata_sf_ways (ways : List (Int × OneWay))
    (nodes : List (Int × Node)) (k_way : List String) :
    Except String (WaysOut × WaysOut) := do
  let pw := (splitWays ways).1
  let npw := (splitWays ways).2
  let polys ← get_osm_ways pw.length pw ways nodes k_way "POLYGON"
  let lines ← get_osm_ways npw.length npw ways nodes k_way "LINESTRING"
  .ok (polys, lines)

/-- `std::map` insertion into an ordered association list (keeps the existing
entry on a duplicate key), modelling how the ordered entity maps the engine
iterates are built by ingestion. -/
def mapIns {β : Type} (m : List (Int × β)) (e : Int × β) : List (Int × β) :=
  match m with
  | [] => [e]
  | p :: ps =>
      if e.1 < p.1 then e :: p :: ps
      else if e.1 = p.1 then p :: ps
      else p :: mapIns ps e

/-- The ordered map built from entries in arbitrary source-document order. -/
def buildMap {β : Type} (doc : List (Int × β)) : List (Int × β) :=
  doc.foldl mapIns []

/-- Two-level length agreement as a proposition (used to state claim C1). -/
def Aligned2 {α β : Type} (a : List (List α)) (b : List (List β)) : Prop :=
  a.length = b.length ∧ ∀ p ∈ List.zip a b, p.1.length = p.2.length

/-- Three-level length agreement as a proposition (used to state claim C1). -/
def Aligned3 {α β : Type} (a : List (List (List α)))
    (b : List (List (List β))) : Prop :=
  a.length = b.length ∧ ∀ p ∈ List.zip a b, Aligned2 p.1 p.2

/-- All four §4.5 parallel-collection invariants of one `get_osm_relations`
result. -/
def AlignedOut (o : RelOut) : Prop :=
  Aligned3 o.geoms.lon_arr_mp o.geoms.lat_arr_mp ∧
  Aligned3 o.geoms.lon_arr_mp o.geoms.rowname_arr_mp ∧
  Aligned3 o.geoms.lon_arr_ls o.geoms.lat_arr_ls ∧
  Aligned3 o.geoms.lon_arr_ls o.geoms.rowname_arr_ls ∧
  Aligned2 o.geoms.lon_arr_ls o.geoms.id_vec_ls ∧
  Aligned2 o.geoms.lon_arr_mp o.geoms.id_vec_mp

/-- The polygon-type relations of the input, in input order. -/
def polyRels (rels : List Relation) : List Relation :=
  rels.filter (fun r => r.ispoly)

/-- One entry per (non-polygonal relation, distinct member role) pair, in the
order the loop of `get_osm_relations` visits them: relations in input order,
roles in ascending `std::set` order within one relation. -/
def lsUnits (rels : List Relation) : List (Relation × String) :=
  (rels.filter (fun r => !r.ispoly)).flatMap
    (fun r => (relRoles r).map (fun ro => (r, ro)))

/-- The value `get_osm_relations` computes when all §4.5 checks pass (used to
state the claim theorems; `get_osm_relations_eq` below proves the two always
agree). -/
def mkRelOut (rels : List Relation) (nodes : List (Int × Node))
    (ways : List (Int × OneWay)) (k_rel : List String) : RelOut :=
  let a := relsContrib ways nodes k_rel rels
  { geoms := a
    kv_df_ls := if a.rel_id_ls.length > 0 then some (a.rel_id_ls, a.kv_ls)
      else none
    kv_df_mp := if a.rel_id_mp.length > 0 then some (a.rel_id_mp, a.kv_mp)
      else none }

instance decAligned2 {α β : Type} (a : List (List α)) (b : List (List β)) :
    Decidable (Aligned2 a b) := by
  rw [Aligned2]
  exact inferInstance

instance decAligned3 {α β : Type} (a : List (List (List α)))
    (b : List (List (List β))) : Decidable (Aligned3 a b) := by
  rw [Aligned3]
  exact inferInstance

/- ======================================================================
   Theorems
   ====================================================================== -/

theorem mem_setIns {α : Type} [LinearOrder α] (a x : α) (l : List α) :
    a ∈ setIns x l ↔ a = x ∨ a ∈ l := by
  induction l with
  | nil => simp [setIns]
  | cons y ys ih =>
      by_cases h1 : x < y
      · simp [setIns, h1]
      · by_cases h2 : x = y
        · subst h2; simp [setIns, h1]
        · simp [setIns, h1, h2, ih]; tauto

theorem setIns_sorted {α : Type} [LinearOrder α] (x : α) (l : List α)
    (h : l.Pairwise (· < ·)) : (setIns x l).Pairwise (· < ·) := by
  induction l with
  | nil => simp [setIns]
  | cons y ys ih =>
      rcases List.pairwise_cons.mp h with ⟨hy, hys⟩
      by_cases h1 : x < y
      · have hx : ∀ b ∈ y :: ys, x < b := by
          intro b hb
          rcases List.mem_cons.mp hb with hb | hb
          · subst hb; exact h1
          · exact lt_trans h1 (hy b hb)
        simpa [setIns, h1] using List.pairwise_cons.mpr ⟨hx, h⟩
      · by_cases h2 : x = y
        · subst h2; simpa [setIns, h1] using h
        · have hyx : y < x := lt_of_le_of_ne (le_of_not_lt h1) (fun e => h2 e.symm)
          have htail : (setIns x ys).Pairwise (· < ·) := ih hys
          have hhead : ∀ b ∈ setIns x ys, y < b := by
            intro b hb
            rcases (mem_setIns b x ys).mp hb with hb | hb
            · subst hb; exact hyx
            · exact hy b hb
          simpa [setIns, h1, h2] using List.pairwise_cons.mpr ⟨hhead, htail⟩

theorem lookupTag_cons (q : String × String) (rest : List (String × String))
    (k : String) :
    lookupTag (q :: rest) k = if q.1 = k then some q.2 else lookupTag rest k := by
  by_cases h : q.1 = k <;> simp [lookupTag, List.find?_cons, h]

theorem lookupTag_eq_none (kv : List (String × String)) (k : String)
    (h : k ∉ kv.map Prod.fst) : lookupTag kv k = none := by
  have : kv.find? (fun p => p.1 == k) = none := by
    apply List.find?_eq_none.mpr
    intro p hp
    simp only [beq_iff_eq]
    intro e
    exact h (List.mem_map.mpr ⟨p, hp, e⟩)
  simp [lookupTag, this]

theorem lookupTag_mem (kv : List (String × String)) (p : String × String)
    (hnd : (kv.map Prod.fst).Nodup) (hp : p ∈ kv) :
    lookupTag kv p.1 = some p.2 := by
  induction kv with
  | nil => cases hp
  | cons q rest ih =>
      rcases List.mem_cons.mp hp with hq | hq
      · subst hq
        simp [lookupTag_cons]
      · rw [lookupTag_cons]
        have hnd2 : q.1 ∉ rest.map Prod.fst ∧ (rest.map Prod.fst).Nodup := by
          rw [List.map_cons] at hnd
          exact List.nodup_cons.mp hnd
        have hne : q.1 ≠ p.1 := by
          intro e
          exact hnd2.1 (by
            rw [e]
            exact List.mem_map.mpr ⟨p, hq, rfl⟩)
        rw [if_neg hne]
        exact ih hnd2.2 hq

theorem zipWith_keep {α β : Type} (l1 : List α) (l2 : List β)
    (h : l1.length = l2.length) : List.zipWith (fun _ c => c) l1 l2 = l2 := by
  induction l1 generalizing l2 with
  | nil => cases l2 <;> simp_all
  | cons x xs ih =>
      cases l2 with
      | nil => simp_all
      | cons y ys => simp only [List.zipWith_cons_cons]; rw [ih ys (by simpa using h)]

theorem mergeRow_nil (keys : List String) (row : List (Option String))
    (h : row.length = keys.length) : mergeRow keys row [] = row := by
  have : mergeRow keys row [] = List.zipWith (fun _ c => c) keys row := by
    simp [mergeRow, lookupTag]
  rw [this, zipWith_keep keys row h.symm]

theorem length_mergeRow (keys : List String) (row : List (Option String))
    (kv : List (String × String)) (h : row.length = keys.length) :
    (mergeRow keys row kv).length = keys.length := by
  simp [mergeRow, h]

theorem mergeRow_cons (keys : List String) (row : List (Option String))
    (q : String × String) (rest : List (String × String))
    (hlen : row.length = keys.length) (hnd : keys.Nodup)
    (hmem : q.1 ∈ keys) (hq : q.1 ∉ rest.map Prod.fst) :
    mergeRow keys row (q :: rest) =
      mergeRow keys (row.set (keyIndex keys q.1) (some q.2)) rest := by
  have hi : keys.indexOf q.1 < keys.length := List.indexOf_lt_length.mpr hmem
  have hkeyi : keys[keys.indexOf q.1] = q.1 := List.getElem_indexOf hi
  apply List.ext_getElem
  · simp [mergeRow, hlen]
  · intro j h1 h2
    have hj : j < keys.length := by
      simpa [mergeRow, hlen] using h1
    have hjr : j < row.length := by rw [hlen]; exact hj
    simp only [mergeRow, List.getElem_zipWith]
    rw [lookupTag_cons]
    by_cases he : q.1 = keys[j]
    · have hij : keys.indexOf q.1 = j := by
        exact (List.Nodup.getElem_inj_iff hnd).mp (hkeyi.trans he)
      rw [if_pos he, lookupTag_eq_none rest keys[j] (he ▸ hq)]
      simp [keyIndex, hij, List.getElem_set_self]
    · rw [if_neg he]
      have hij : keyIndex keys q.1 ≠ j := by
        intro e
        apply he
        have hje : keys.indexOf q.1 = j := by simpa [keyIndex] using e
        subst hje
        exact hkeyi.symm
      cases hlk : lookupTag rest keys[j] with
      | some v => simp [hlk]
      | none => simp [hlk, List.getElem_set_ne hij]

theorem foldWrites_ok (keys : List String) (kv : List (String × String))
    (row : List (Option String)) (hlen : row.length = keys.length)
    (hnd : keys.Nodup) (hkvnd : (kv.map Prod.fst).Nodup)
    (hin : ∀ p ∈ kv, p.1 ∈ keys) :
    foldWrites keys row kv = .ok (mergeRow keys row kv) := by
  induction kv generalizing row with
  | nil =>
      simp only [foldWrites, List.foldlM_nil, mergeRow_nil keys row hlen]
      rfl
  | cons q rest ih =>
      have hmem : q.1 ∈ keys := hin q (List.mem_cons_self q rest)
      have hi : keyIndex keys q.1 < row.length := by
        rw [hlen]; exact List.indexOf_lt_length.mpr hmem
      have hstep : writeCell row (keyIndex keys q.1) q.2 =
          .ok (row.set (keyIndex keys q.1) (some q.2)) := by
        simp [writeCell, hi]
      have hnd2 : q.1 ∉ rest.map Prod.fst ∧ (rest.map Prod.fst).Nodup := by
        rw [List.map_cons] at hkvnd
        exact List.nodup_cons.mp hkvnd
      have hrec := ih (row.set (keyIndex keys q.1) (some q.2))
        (by simpa using hlen) hnd2.2 (fun p hp => hin p (List.mem_cons_of_mem q hp))
      calc foldWrites keys row (q :: rest)
          = writeCell row (keyIndex keys q.1) q.2 >>= fun r2 =>
              foldWrites keys r2 rest := by simp [foldWrites]
        _ = foldWrites keys (row.set (keyIndex keys q.1) (some q.2)) rest := by
              rw [hstep]; rfl
        _ = .ok (mergeRow keys (row.set (keyIndex keys q.1) (some q.2)) rest) := hrec
        _ = .ok (mergeRow keys row (q :: rest)) := by
              rw [mergeRow_cons keys row q rest hlen hnd hmem hnd2.1]

theorem mergeRow_replicate (keys : List String) (kv : List (String × String)) :
    mergeRow keys (List.replicate keys.length none) kv = makeKvRow keys kv := by
  apply List.ext_getElem
  · simp [mergeRow, makeKvRow]
  · intro j h1 h2
    have hj : j < keys.length := by simpa [makeKvRow] using h2
    simp only [mergeRow, List.getElem_zipWith, makeKvRow, List.getElem_map,
      List.getElem_replicate]
    cases lookupTag kv keys[j] <;> simp

theorem buildNodeRow_ok (keys : List String) (kv : List (String × String))
    (hnd : keys.Nodup) (hkvnd : (kv.map Prod.fst).Nodup)
    (hin : ∀ p ∈ kv, p.1 ∈ keys) :
    buildNodeRow keys kv = .ok (makeKvRow keys kv) := by
  rw [buildNodeRow, foldWrites_ok keys kv _ (by simp) hnd hkvnd hin,
    mergeRow_replicate]

theorem foldWrites_error_iff (keys : List String) (kv : List (String × String))
    (row : List (Option String)) (hlen : row.length = keys.length) :
    foldWrites keys row kv = .error "UnknownKeyError" ↔ ∃ p ∈ kv, p.1 ∉ keys := by
  induction kv generalizing row with
  | nil => simp [foldWrites, pure, Except.pure]
  | cons q rest ih =>
      by_cases hmem : q.1 ∈ keys
      · have hi : keyIndex keys q.1 < row.length := by
          rw [hlen]; exact List.indexOf_lt_length.mpr hmem
        have hrw : foldWrites keys row (q :: rest) =
            foldWrites keys (row.set (keyIndex keys q.1) (some q.2)) rest := by
          simp only [foldWrites, List.foldlM_cons, writeCell, if_pos hi]
          rfl
        rw [hrw, ih _ (by simpa using hlen)]
        constructor
        · rintro ⟨p, hp, hnp⟩
          exact ⟨p, List.mem_cons_of_mem q hp, hnp⟩
        · rintro ⟨p, hp, hnp⟩
          rcases List.mem_cons.mp hp with hp | hp
          · exact absurd (hp ▸ hmem) hnp
          · exact ⟨p, hp, hnp⟩
      · have hidx : keyIndex keys q.1 = keys.length := by
          simp [keyIndex, List.indexOf_eq_length.mpr hmem]
        have hw : writeCell row (keyIndex keys q.1) q.2 = .error "UnknownKeyError" := by
          simp [writeCell, hidx, hlen]
        have hrw : foldWrites keys row (q :: rest) = .error "UnknownKeyError" := by
          simp only [foldWrites, List.foldlM_cons, hw]
          rfl
        simp only [hrw, true_iff]
        exact ⟨q, List.mem_cons_self q rest, hmem⟩

theorem foldWrites_ok_exists (keys : List String) (kv : List (String × String))
    (row : List (Option String)) (hlen : row.length = keys.length)
    (hin : ∀ p ∈ kv, p.1 ∈ keys) :
    ∃ r2, foldWrites keys row kv = .ok r2 := by
  induction kv generalizing row with
  | nil => exact ⟨row, rfl⟩
  | cons q rest ih =>
      have hmem : q.1 ∈ keys := hin q (List.mem_cons_self q rest)
      have hi : keyIndex keys q.1 < row.length := by
        rw [hlen]; exact List.indexOf_lt_length.mpr hmem
      have hrw : foldWrites keys row (q :: rest) =
          foldWrites keys (row.set (keyIndex keys q.1) (some q.2)) rest := by
        simp only [foldWrites, List.foldlM_cons, writeCell, if_pos hi]
        rfl
      rw [hrw]
      exact ih _ (by simpa using hlen)
        (fun p hp => hin p (List.mem_cons_of_mem q hp))

/-- C5: for every entity of kind K, the attribute row built for it has length
exactly |UniqueVals[K]|; for every tag (k, v) on the entity the cell in the
column of key k (under the UniqueVals ordering) equals v, and every other
cell is explicitly absent (`none`, i.e. NA).  Proved for the row builder of
`get_osm_nodes` (src/osmdata.cpp lines 390–412), shown to coincide with the
declarative row `makeKvRow` shared by the spec-modelled way/relation row
builders. -/
theorem claim_C5_attribute_row (keys : List String) (kv : List (String × String))
    (hnd : keys.Nodup) (hkvnd : (kv.map Prod.fst).Nodup)
    (hin : ∀ p ∈ kv, p.1 ∈ keys) :
    buildNodeRow keys kv = .ok (makeKvRow keys kv) ∧
    (makeKvRow keys kv).length = keys.length ∧
    (∀ p ∈ kv, (makeKvRow keys kv).getD (keyIndex keys p.1) none = some p.2) ∧
    (∀ j, (hj : j < keys.length) → (∀ p ∈ kv, p.1 ≠ keys[j]) →
      (makeKvRow keys kv).getD j none = none) := by
  refine ⟨buildNodeRow_ok keys kv hnd hkvnd hin, by simp [makeKvRow], ?_, ?_⟩
  · intro p hp
    have hmem : p.1 ∈ keys := hin p hp
    have hi : keys.indexOf p.1 < keys.length := List.indexOf_lt_length.mpr hmem
    have hlen2 : keys.indexOf p.1 < (makeKvRow keys kv).length := by
      simpa [makeKvRow] using hi
    rw [keyIndex, List.getD_eq_getElem _ _ hlen2]
    simp only [makeKvRow, List.getElem_map, List.getElem_indexOf hi]
    exact lookupTag_mem kv p hkvnd hp
  · intro j hj hne
    have hlen2 : j < (makeKvRow keys kv).length := by simpa [makeKvRow] using hj
    rw [List.getD_eq_getElem _ _ hlen2]
    simp only [makeKvRow, List.getElem_map]
    apply lookupTag_eq_none
    intro hk
    rcases List.mem_map.mp hk with ⟨p, hp, he⟩
    exact hne p hp he

/-- Witness for C5 at a concrete input. -/
theorem claim_C5_attribute_row_witness :
    buildNodeRow ["amenity", "name"] [("name", "beach")] =
      .ok (makeKvRow ["amenity", "name"] [("name", "beach")]) ∧
    (makeKvRow ["amenity", "name"] [("name", "beach")]).length =
      (["amenity", "name"] : List String).length ∧
    (∀ p ∈ [("name", "beach")],
      (makeKvRow ["amenity", "name"] [("name", "beach")]).getD
        (keyIndex ["amenity", "name"] p.1) none = some p.2) ∧
    (∀ j, (hj : j < (["amenity", "name"] : List String).length) →
      (∀ p ∈ [("name", "beach")], p.1 ≠ ["amenity", "name"][j]) →
      (makeKvRow ["amenity", "name"] [("name", "beach")]).getD j none = none) :=
  claim_C5_attribute_row ["amenity", "name"] [("name", "beach")]
    (by decide) (by decide) (by decide)

/-- C7: the attribute row builder fails with `UnknownKeyError` if and only if
the entity carries a tag key absent from the precomputed UniqueVals key set
for its kind; with every tag key present, no error is raised and a complete
row is produced (src/osmdata.cpp lines 404–411, the out-of-range column write
modelled as the fatal error). -/
theorem claim_C7_unknown_key_error (keys : List String)
    (kv : List (String × String)) :
    (buildNodeRow keys kv = .error "UnknownKeyError" ↔ ∃ p ∈ kv, p.1 ∉ keys) ∧
    ((∀ p ∈ kv, p.1 ∈ keys) → ∃ row, buildNodeRow keys kv = .ok row) := by
  constructor
  · exact foldWrites_error_iff keys kv _ (by simp)
  · intro hin
    exact foldWrites_ok_exists keys kv _ (by simp) hin

/-- Witness for C7 at a concrete input (an unknown key errors; dropping it
succeeds). -/
theorem claim_C7_unknown_key_error_witness :
    (buildNodeRow ["name"] [("surface", "gravel")] = .error "UnknownKeyError" ↔
      ∃ p ∈ [("surface", "gravel")], p.1 ∉ ["name"]) ∧
    ((∀ p ∈ [("surface", "gravel")], p.1 ∈ ["name"]) →
      ∃ row, buildNodeRow ["name"] [("surface", "gravel")] = .ok row) :=
  claim_C7_unknown_key_error ["name"] [("surface", "gravel")]

theorem relStep_app (w : List (Int × OneWay)) (n : List (Int × Node))
    (k : List String) (acc : RelAcc) (r : Relation) :
    relStep w n k acc r = acc.app (relStep w n k RelAcc.empty r) := by
  cases acc
  by_cases h : r.ispoly <;> simp [relStep, RelAcc.app, RelAcc.empty, h]

theorem app_empty (a : RelAcc) : RelAcc.empty.app a = a := by
  cases a; simp [RelAcc.app, RelAcc.empty]

theorem app_empty_right (a : RelAcc) : a.app RelAcc.empty = a := by
  cases a; simp [RelAcc.app, RelAcc.empty]

theorem app_assoc (a b c : RelAcc) : (a.app b).app c = a.app (b.app c) := by
  cases a; cases b; cases c; simp [RelAcc.app]

theorem foldl_relStep (w : List (Int × OneWay)) (n : List (Int × Node))
    (k : List String) (rels : List Relation) (acc : RelAcc) :
    rels.foldl (relStep w n k) acc = acc.app (relsContrib w n k rels) := by
  induction rels generalizing acc with
  | nil => simp [relsContrib, app_empty_right]
  | cons r rs ih =>
      rw [List.foldl_cons, ih, relStep_app, app_assoc]
      simp [relsContrib]

theorem relsContrib_eq (w : List (Int × OneWay)) (n : List (Int × Node))
    (k : List String) (rels : List Relation) :
    relsContrib w n k rels =
      { rel_id_mp := (polyRels rels).map (fun r => toString r.id)
        lon_arr_mp := (polyRels rels).map (fun r => (trace_multipolygon r w n).1)
        lat_arr_mp := (polyRels rels).map (fun r => (trace_multipolygon r w n).2.1)
        rowname_arr_mp :=
          (polyRels rels).map (fun r => (trace_multipolygon r w n).2.2.1)
        id_vec_mp := (polyRels rels).map (fun r => (trace_multipolygon r w n).2.2.2)
        kv_mp := (polyRels rels).map (fun r => get_value_mat_rel k r)
        rel_id_ls := (lsUnits rels).map (fun u => lsLabel u.1 u.2)
        lon_arr_ls :=
          (lsUnits rels).map (fun u => (trace_multilinestring u.1 u.2 w n).1)
        lat_arr_ls :=
          (lsUnits rels).map (fun u => (trace_multilinestring u.1 u.2 w n).2.1)
        rowname_arr_ls :=
          (lsUnits rels).map (fun u => (trace_multilinestring u.1 u.2 w n).2.2.1)
        id_vec_ls :=
          (lsUnits rels).map (fun u => (trace_multilinestring u.1 u.2 w n).2.2.2)
        kv_ls := (lsUnits rels).map (fun u => get_value_mat_rel k u.1) } := by
  induction rels with
  | nil => simp [relsContrib, polyRels, lsUnits, RelAcc.empty]
  | cons r rs ih =>
      by_cases h : r.ispoly <;>
        simp [relsContrib, ih, relStep, RelAcc.app, RelAcc.empty, polyRels,
          lsUnits, h, List.map_map, Function.comp_def, List.map_const']

theorem check2_map {γ α β : Type} (l : List γ) (f : γ → List α) (g : γ → List β)
    (h : ∀ x ∈ l, (f x).length = (g x).length) :
    check2 (l.map f) (l.map g) = true := by
  rw [check2, Bool.and_eq_true]
  refine ⟨beq_iff_eq.mpr (by simp), ?_⟩
  rw [List.all_eq_true]
  intro p hp
  rw [List.zip_map'] at hp
  rcases List.mem_map.mp hp with ⟨x, hx, he⟩
  subst he
  simp [h x hx]

theorem check3_map {γ α β : Type} (l : List γ) (f : γ → List (List α))
    (g : γ → List (List β)) (h : ∀ x ∈ l, check2 (f x) (g x) = true) :
    check3 (l.map f) (l.map g) = true := by
  rw [check3, Bool.and_eq_true]
  refine ⟨beq_iff_eq.mpr (by simp), ?_⟩
  rw [List.all_eq_true]
  intro p hp
  rw [List.zip_map'] at hp
  rcases List.mem_map.mp hp with ⟨x, hx, he⟩
  subst he
  exact h x hx

theorem check2_iff {α β : Type} (a : List (List α)) (b : List (List β)) :
    check2 a b = true ↔ Aligned2 a b := by
  simp [check2, Aligned2, List.all_eq_true]

theorem check3_iff {α β : Type} (a : List (List (List α)))
    (b : List (List (List β))) :
    check3 a b = true ↔ Aligned3 a b := by
  simp only [check3, Aligned3, Bool.and_eq_true, beq_iff_eq, List.all_eq_true]
  constructor
  · rintro ⟨h1, h2⟩
    exact ⟨h1, fun p hp => (check2_iff p.1 p.2).mp (h2 p hp)⟩
  · rintro ⟨h1, h2⟩
    exact ⟨h1, fun p hp => (check2_iff p.1 p.2).mpr (h2 p hp)⟩

theorem check_geom_arrs_error_iff {α β : Type} (lon lat : List (List (List α)))
    (rn : List (List (List β))) :
    check_geom_arrs lon lat rn = .error "StructuralMismatchError" ↔
      ¬(Aligned3 lon lat ∧ Aligned3 lon rn) := by
  by_cases hc : (check3 lon lat && check3 lon rn) = true
  · rw [check_geom_arrs, if_pos hc]
    rw [Bool.and_eq_true, check3_iff, check3_iff] at hc
    simp [hc]
  · rw [check_geom_arrs, if_neg hc]
    rw [Bool.and_eq_true, check3_iff, check3_iff] at hc
    simp [hc]

theorem check_id_arr_error_iff {α β : Type} (arr : List (List (List α)))
    (ids : List (List β)) :
    check_id_arr arr ids = .error "StructuralMismatchError" ↔
      ¬ Aligned2 arr ids := by
  by_cases hc : (arr.length == ids.length &&
      (List.zip arr ids).all (fun p => p.1.length == p.2.length)) = true
  · rw [check_id_arr, if_pos hc]
    rw [Bool.and_eq_true, beq_iff_eq, List.all_eq_true] at hc
    simp only [beq_iff_eq] at hc
    have ha : Aligned2 arr ids := ⟨hc.1, fun p hp => hc.2 p hp⟩
    simp [ha]
  · rw [check_id_arr, if_neg hc]
    rw [Bool.and_eq_true, beq_iff_eq, List.all_eq_true] at hc
    simp only [beq_iff_eq] at hc
    simp only [Aligned2]
    tauto

theorem trace_way_len_lat (ways : List (Int × OneWay)) (nodes : List (Int × Node))
    (wid : Int) :
    (trace_way ways nodes wid).1.length = (trace_way ways nodes wid).2.1.length := by
  rw [trace_way]
  cases lookupA ways wid <;> simp

theorem trace_way_len_rn (ways : List (Int × OneWay)) (nodes : List (Int × Node))
    (wid : Int) :
    (trace_way ways nodes wid).1.length = (trace_way ways nodes wid).2.2.length := by
  rw [trace_way]
  cases lookupA ways wid <;> simp

theorem check_geom_arrs_ok {α β : Type} (lon lat : List (List (List α)))
    (rn : List (List (List β))) (h1 : check3 lon lat = true)
    (h2 : check3 lon rn = true) : check_geom_arrs lon lat rn = .ok () := by
  rw [check_geom_arrs, if_pos (Bool.and_eq_true _ _ |>.mpr ⟨h1, h2⟩)]

theorem check_id_arr_map {γ α β : Type} (l : List γ) (f : γ → List (List α))
    (g : γ → List β) (h : ∀ x ∈ l, (f x).length = (g x).length) :
    check_id_arr (l.map f) (l.map g) = .ok () := by
  have hc : ((l.map f).length == (l.map g).length &&
      (List.zip (l.map f) (l.map g)).all (fun p => p.1.length == p.2.length)) = true := by
    rw [Bool.and_eq_true]
    refine ⟨beq_iff_eq.mpr (by simp), ?_⟩
    rw [List.all_eq_true]
    intro p hp
    rw [List.zip_map'] at hp
    rcases List.mem_map.mp hp with ⟨x, hx, he⟩
    subst he
    simp [h x hx]
  rw [check_id_arr, if_pos hc]

theorem check2_mp_lat (r : Relation) (w : List (Int × OneWay))
    (n : List (Int × Node)) :
    check2 (trace_multipolygon r w n).1 (trace_multipolygon r w n).2.1 = true := by
  simp only [trace_multipolygon]
  exact check2_map r.ways _ _ (fun m _ => trace_way_len_lat w n m.1)

theorem check2_mp_rn (r : Relation) (w : List (Int × OneWay))
    (n : List (Int × Node)) :
    check2 (trace_multipolygon r w n).1 (trace_multipolygon r w n).2.2.1 = true := by
  simp only [trace_multipolygon]
  exact check2_map r.ways _ _ (fun m _ => trace_way_len_rn w n m.1)

theorem check2_ls_lat (r : Relation) (ro : String) (w : List (Int × OneWay))
    (n : List (Int × Node)) :
    check2 (trace_multilinestring r ro w n).1
      (trace_multilinestring r ro w n).2.1 = true := by
  simp only [trace_multilinestring]
  exact check2_map _ _ _ (fun m _ => trace_way_len_lat w n m)

theorem check2_ls_rn (r : Relation) (ro : String) (w : List (Int × OneWay))
    (n : List (Int × Node)) :
    check2 (trace_multilinestring r ro w n).1
      (trace_multilinestring r ro w n).2.2.1 = true := by
  simp only [trace_multilinestring]
  exact check2_map _ _ _ (fun m _ => trace_way_len_rn w n m)

theorem get_osm_relations_eq (rels : List Relation) (nodes : List (Int × Node))
    (ways : List (Int × OneWay)) (k_rel : List String) :
    get_osm_relations rels nodes ways k_rel =
      .ok (mkRelOut rels nodes ways k_rel) := by
  have ha : rels.foldl (relStep ways nodes k_rel) RelAcc.empty =
      relsContrib ways nodes k_rel rels := by
    rw [foldl_relStep, app_empty]
  have hc1 : check_geom_arrs (relsContrib ways nodes k_rel rels).lon_arr_mp
      (relsContrib ways nodes k_rel rels).lat_arr_mp
      (relsContrib ways nodes k_rel rels).rowname_arr_mp = .ok () := by
    simp only [relsContrib_eq]
    exact check_geom_arrs_ok _ _ _
      (check3_map _ _ _ (fun r _ => check2_mp_lat r ways nodes))
      (check3_map _ _ _ (fun r _ => check2_mp_rn r ways nodes))
  have hc2 : check_geom_arrs (relsContrib ways nodes k_rel rels).lon_arr_ls
      (relsContrib ways nodes k_rel rels).lat_arr_ls
      (relsContrib ways nodes k_rel rels).rowname_arr_ls = .ok () := by
    simp only [relsContrib_eq]
    exact check_geom_arrs_ok _ _ _
      (check3_map _ _ _ (fun u _ => check2_ls_lat u.1 u.2 ways nodes))
      (check3_map _ _ _ (fun u _ => check2_ls_rn u.1 u.2 ways nodes))
  have hc3 : check_id_arr (relsContrib ways nodes k_rel rels).lon_arr_ls
      (relsContrib ways nodes k_rel rels).id_vec_ls = .ok () := by
    simp only [relsContrib_eq]
    exact check_id_arr_map _ _ _
      (fun u _ => by simp [trace_multilinestring])
  have hc4 : check_id_arr (relsContrib ways nodes k_rel rels).lon_arr_mp
      (relsContrib ways nodes k_rel rels).id_vec_mp = .ok () := by
    simp only [relsContrib_eq]
    exact check_id_arr_map _ _ _
      (fun r _ => by simp [trace_multipolygon])
  simp only [get_osm_relations, ha, hc1, hc2, hc3, hc4, mkRelOut]
  rfl

theorem mem_foldl_setIns (ms : List (Int × String)) (acc : List String)
    (a : String) :
    a ∈ ms.foldl (fun s m => setIns m.2 s) acc ↔
      a ∈ acc ∨ ∃ m ∈ ms, m.2 = a := by
  induction ms generalizing acc with
  | nil => simp
  | cons m rest ih =>
      rw [List.foldl_cons, ih, mem_setIns]
      constructor
      · rintro ((h | h) | ⟨m2, hm2, he⟩)
        · exact Or.inr ⟨m, List.mem_cons_self m rest, h.symm⟩
        · exact Or.inl h
        · exact Or.inr ⟨m2, List.mem_cons_of_mem m hm2, he⟩
      · rintro (h | ⟨m2, hm2, he⟩)
        · exact Or.inl (Or.inr h)
        · rcases List.mem_cons.mp hm2 with hm2 | hm2
          · exact Or.inl (Or.inl (by rw [← he, hm2]))
          · exact Or.inr ⟨m2, hm2, he⟩

theorem sorted_foldl_setIns (ms : List (Int × String)) (acc : List String)
    (h : acc.Pairwise (· < ·)) :
    (ms.foldl (fun s m => setIns m.2 s) acc).Pairwise (· < ·) := by
  induction ms generalizing acc with
  | nil => exact h
  | cons m rest ih => exact ih (setIns m.2 acc) (setIns_sorted m.2 acc h)

theorem relRoles_sorted (r : Relation) : (relRoles r).Pairwise (· < ·) :=
  sorted_foldl_setIns r.ways [] (List.Pairwise.nil)

theorem relRoles_mem (r : Relation) (a : String) :
    a ∈ relRoles r ↔ ∃ m ∈ r.ways, m.2 = a := by
  rw [relRoles, mem_foldl_setIns]
  simp

theorem relRoles_nodup (r : Relation) : (relRoles r).Nodup :=
  (relRoles_sorted r).imp ne_of_lt

theorem relRoles_of_empty (r : Relation) (h : r.ways = []) : relRoles r = [] := by
  simp [relRoles, h]

/-- C1: before any geometry collection is emitted, the accumulated parallel
arrays are validated for pairwise equal lengths at every nesting level
(src/osmdata.cpp lines 227–230); any length mismatch makes the checkers abort
with `StructuralMismatchError`, and a successfully returned bundle always has
aligned parallel collections. -/
theorem claim_C1_structural_mismatch (rels : List Relation)
    (nodes : List (Int × Node)) (ways : List (Int × OneWay))
    (k_rel : List String) :
    (∀ o, get_osm_relations rels nodes ways k_rel = .ok o → AlignedOut o) ∧
    (∀ (lon lat : List (List (List Int))) (rn : List (List (List String))),
      ¬(Aligned3 lon lat ∧ Aligned3 lon rn) →
      check_geom_arrs lon lat rn = .error "StructuralMismatchError") ∧
    (∀ (arr : List (List (List Int))) (ids : List (List Int)),
      ¬ Aligned2 arr ids →
      check_id_arr arr ids = .error "StructuralMismatchError") := by
  refine ⟨?_, ?_, ?_⟩
  · intro o ho
    have he : o = mkRelOut rels nodes ways k_rel := by
      have h2 := ho.symm.trans (get_osm_relations_eq rels nodes ways k_rel)
      exact Except.ok.inj h2
    subst he
    have hg : (mkRelOut rels nodes ways k_rel).geoms =
        relsContrib ways nodes k_rel rels := rfl
    rw [AlignedOut, hg]
    refine ⟨?_, ?_, ?_, ?_, ?_, ?_⟩
    · exact (check3_iff _ _).mp (by
        simp only [relsContrib_eq]
        exact check3_map _ _ _ (fun r _ => check2_mp_lat r ways nodes))
    · exact (check3_iff _ _).mp (by
        simp only [relsContrib_eq]
        exact check3_map _ _ _ (fun r _ => check2_mp_rn r ways nodes))
    · exact (check3_iff _ _).mp (by
        simp only [relsContrib_eq]
        exact check3_map _ _ _ (fun u _ => check2_ls_lat u.1 u.2 ways nodes))
    · exact (check3_iff _ _).mp (by
        simp only [relsContrib_eq]
        exact check3_map _ _ _ (fun u _ => check2_ls_rn u.1 u.2 ways nodes))
    · simp only [relsContrib_eq]
      refine ⟨by simp, ?_⟩
      intro p hp
      rw [List.zip_map'] at hp
      rcases List.mem_map.mp hp with ⟨u, hu, he⟩
      subst he
      simp [trace_multilinestring]
    · simp only [relsContrib_eq]
      refine ⟨by simp, ?_⟩
      intro p hp
      rw [List.zip_map'] at hp
      rcases List.mem_map.mp hp with ⟨u, hu, he⟩
      subst he
      simp [trace_multipolygon]
  · intro lon lat rn h
    exact (check_geom_arrs_error_iff lon lat rn).mpr h
  · intro arr ids h
    exact (check_id_arr_error_iff arr ids).mpr h

/-- Witness for C1: a concrete misaligned pair of collections is rejected,
and the concrete successful conversion of an empty input is aligned. -/
theorem claim_C1_structural_mismatch_witness :
    check_geom_arrs [[[(1 : Int)], []]] [[[(1 : Int)]]]
      ([] : List (List (List String))) = .error "StructuralMismatchError" ∧
    check_id_arr [[[(1 : Int)]]] ([[], []] : List (List Int)) =
      .error "StructuralMismatchError" ∧
    AlignedOut (mkRelOut [] [] [] []) :=
  ⟨(claim_C1_structural_mismatch [] [] [] []).2.1 _ _ _ (by decide),
   (claim_C1_structural_mismatch [] [] [] []).2.2 _ _ (by decide),
   (claim_C1_structural_mismatch [] [] [] []).1 _ (get_osm_relations_eq [] [] [] [])⟩

/-- C2: for every non-polygonal relation the assembler emits exactly one
traced geometry and one attribute row per distinct role string among the
relation's way-members (not one per member), visiting the distinct roles in
ascending sorted order, with label `"{relation-id}-(no role)"` for the empty
role and `"{relation-id}-{role}"` otherwise; a relation with zero members
contributes zero geometries and zero rows and the conversion still
succeeds (src/osmdata.cpp lines 154–167 and 196–222). -/
theorem claim_C2_one_geometry_per_role (rels : List Relation)
    (nodes : List (Int × Node)) (ways : List (Int × OneWay))
    (k_rel : List String) :
    ∃ o, get_osm_relations rels nodes ways k_rel = .ok o ∧
      o.geoms.rel_id_ls = (lsUnits rels).map (fun u => lsLabel u.1 u.2) ∧
      o.geoms.lon_arr_ls =
        (lsUnits rels).map (fun u => (trace_multilinestring u.1 u.2 ways nodes).1) ∧
      o.geoms.kv_ls.length = (lsUnits rels).length ∧
      (∀ r : Relation, (relRoles r).Pairwise (· < ·) ∧ (relRoles r).Nodup) ∧
      (∀ (r : Relation) (a : String),
        a ∈ relRoles r ↔ ∃ m ∈ r.ways, m.2 = a) ∧
      (∀ (i : Int) (b : Bool) (kv : List (String × String)),
        relRoles ⟨i, b, [], kv⟩ = []) ∧
      (∀ (r : Relation) (ro : String), lsLabel r ro =
        if ro = "" then toString r.id ++ "-(no role)"
        else toString r.id ++ "-" ++ ro) := by
  refine ⟨mkRelOut rels nodes ways k_rel,
    get_osm_relations_eq rels nodes ways k_rel, ?_, ?_, ?_, ?_, ?_, ?_, ?_⟩
  · simp [mkRelOut, relsContrib_eq]
  · simp [mkRelOut, relsContrib_eq]
  · simp [mkRelOut, relsContrib_eq]
  · exact fun r => ⟨relRoles_sorted r, relRoles_nodup r⟩
  · exact fun r a => relRoles_mem r a
  · exact fun i b kv => relRoles_of_empty ⟨i, b, [], kv⟩ rfl
  · exact fun r ro => rfl

/-- Witness for C2 at a concrete input: relation 7 with members carrying
roles "b" and "" emits two multilinestrings labelled in ascending role
order. -/
theorem claim_C2_one_geometry_per_role_witness :
    ∃ o, get_osm_relations [⟨7, false, [(2, "")], []⟩, ⟨8, false, [(3, "b")], []⟩]
        [] [] [] = .ok o ∧
      o.geoms.rel_id_ls = ["7-(no role)", "8-b"] := by
  obtain ⟨o, h1, h2, _⟩ := claim_C2_one_geometry_per_role
    [⟨7, false, [(2, "")], []⟩, ⟨8, false, [(3, "b")], []⟩] [] [] []
  refine ⟨o, h1, ?_⟩
  rw [h2]
  decide

/-- C3: for every non-polygonal relation R and every distinct role among its
members, the attribute row emitted for that role is a pointwise copy of R's
own relation-level attribute row, so all role-derived rows of one relation
are equal to each other and to the row built for R directly
(src/osmdata.cpp lines 203–221). -/
theorem claim_C3_role_rows_copy_relation_row (rels : List Relation)
    (nodes : List (Int × Node)) (ways : List (Int × OneWay))
    (k_rel : List String) :
    ∃ o, get_osm_relations rels nodes ways k_rel = .ok o ∧
      o.geoms.kv_ls = (lsUnits rels).map (fun u => get_value_mat_rel k_rel u.1) ∧
      (∀ u : Relation × String,
        get_value_mat_rel k_rel u.1 = makeKvRow k_rel u.1.key_val) ∧
      (∀ (r : Relation) (ro1 ro2 : String),
        get_value_mat_rel k_rel (r, ro1).1 = get_value_mat_rel k_rel (r, ro2).1) := by
  refine ⟨mkRelOut rels nodes ways k_rel,
    get_osm_relations_eq rels nodes ways k_rel, ?_, fun u => rfl, fun r a b => rfl⟩
  simp [mkRelOut, relsContrib_eq]

/-- Witness for C3 at a concrete input: both role-derived rows of relation 7
equal the relation's own row `[some "x"]`. -/
theorem claim_C3_role_rows_copy_relation_row_witness :
    ∃ o, get_osm_relations [⟨7, false, [(2, "")], [("name", "x")]⟩]
        [] [] ["name"] = .ok o ∧
      o.geoms.kv_ls = [[some "x"]] := by
  obtain ⟨o, h1, h2, _⟩ := claim_C3_role_rows_copy_relation_row
    [⟨7, false, [(2, "")], [("name", "x")]⟩] [] [] ["name"]
  refine ⟨o, h1, ?_⟩
  rw [h2]
  decide

/-- C4: for every polygon-type relation, the multipolygon assembler emits
ring sub-geometries equal in number to the relation's member ways and in the
relation's declared member order, together with exactly one attribute row
for the whole relation (src/osmdata.cpp lines 177–191). -/
theorem claim_C4_multipolygon_rings (rels : List Relation)
    (nodes : List (Int × Node)) (ways : List (Int × OneWay))
    (k_rel : List String) :
    ∃ o, get_osm_relations rels nodes ways k_rel = .ok o ∧
      o.geoms.lon_arr_mp =
        (polyRels rels).map (fun r => (trace_multipolygon r ways nodes).1) ∧
      o.geoms.id_vec_mp =
        (polyRels rels).map (fun r => r.ways.map (fun m => toString m.1)) ∧
      (∀ r : Relation, (trace_multipolygon r ways nodes).1.length = r.ways.length) ∧
      o.geoms.kv_mp = (polyRels rels).map (fun r => get_value_mat_rel k_rel r) ∧
      o.geoms.kv_mp.length = (polyRels rels).length := by
  refine ⟨mkRelOut rels nodes ways k_rel,
    get_osm_relations_eq rels nodes ways k_rel, ?_, ?_, ?_, ?_, ?_⟩
  · simp [mkRelOut, relsContrib_eq]
  · simp [mkRelOut, relsContrib_eq, trace_multipolygon]
  · intro r; simp [trace_multipolygon]
  · simp [mkRelOut, relsContrib_eq]
  · simp [mkRelOut, relsContrib_eq]

/-- Witness for C4 at a concrete input: polygon relation 9 with two member
ways emits two rings in declared order and one attribute row. -/
theorem claim_C4_multipolygon_rings_witness :
    ∃ o, get_osm_relations [⟨9, true, [(1, "outer"), (2, "inner")], []⟩]
        [] [] [] = .ok o ∧
      o.geoms.id_vec_mp = [["1", "2"]] ∧
      o.geoms.kv_mp.length = 1 := by
  obtain ⟨o, h1, _, h3, _, _, h6⟩ := claim_C4_multipolygon_rings
    [⟨9, true, [(1, "outer"), (2, "inner")], []⟩] [] [] []
  refine ⟨o, h1, ?_, ?_⟩
  · rw [h3]; decide
  · rw [h6]; decide

/-- C9: the multipolygon attribute table is the null value (`none`), not an
empty table, exactly when the input has zero polygon-type relations, and the
multilinestring attribute table is null exactly when zero multilinestring
geometries are emitted; each table is a real data frame exactly when at
least one geometry of its kind exists (src/osmdata.cpp lines 265–281). -/
theorem claim_C9_null_attribute_tables (rels : List Relation)
    (nodes : List (Int × Node)) (ways : List (Int × OneWay))
    (k_rel : List String) :
    ∃ o, get_osm_relations rels nodes ways k_rel = .ok o ∧
      (o.kv_df_mp = none ↔ (polyRels rels).length = 0) ∧
      (o.kv_df_ls = none ↔ (lsUnits rels).length = 0) ∧
      (o.kv_df_mp.isSome = true ↔ o.geoms.rel_id_mp.length > 0) ∧
      (o.kv_df_ls.isSome = true ↔ o.geoms.rel_id_ls.length > 0) := by
  have hmp : (relsContrib ways nodes k_rel rels).rel_id_mp.length =
      (polyRels rels).length := by simp [relsContrib_eq]
  have hls : (relsContrib ways nodes k_rel rels).rel_id_ls.length =
      (lsUnits rels).length := by simp [relsContrib_eq]
  have hb : (mkRelOut rels nodes ways k_rel).geoms =
      relsContrib ways nodes k_rel rels := rfl
  have hdfmp : (mkRelOut rels nodes ways k_rel).kv_df_mp =
      (if (relsContrib ways nodes k_rel rels).rel_id_mp.length > 0
       then some ((relsContrib ways nodes k_rel rels).rel_id_mp,
         (relsContrib ways nodes k_rel rels).kv_mp) else none) := rfl
  have hdfls : (mkRelOut rels nodes ways k_rel).kv_df_ls =
      (if (relsContrib ways nodes k_rel rels).rel_id_ls.length > 0
       then some ((relsContrib ways nodes k_rel rels).rel_id_ls,
         (relsContrib ways nodes k_rel rels).kv_ls) else none) := rfl
  refine ⟨mkRelOut rels nodes ways k_rel,
    get_osm_relations_eq rels nodes ways k_rel, ?_, ?_, ?_, ?_⟩
  · rw [hdfmp, hmp]
    by_cases h : (polyRels rels).length > 0
    · rw [if_pos h]
      simp only [reduceCtorEq, false_iff]
      omega
    · rw [if_neg h]
      simp only [true_iff]
      omega
  · rw [hdfls, hls]
    by_cases h : (lsUnits rels).length > 0
    · rw [if_pos h]
      simp only [reduceCtorEq, false_iff]
      omega
    · rw [if_neg h]
      simp only [true_iff]
      omega
  · rw [hdfmp, hb, hmp]
    by_cases h : (polyRels rels).length > 0
    · rw [if_pos h]
      simp [h]
    · rw [if_neg h]
      simp [h]
  · rw [hdfls, hb, hls]
    by_cases h : (lsUnits rels).length > 0
    · rw [if_pos h]
      simp [h]
    · rw [if_neg h]
      simp [h]

/-- Witness for C9 at a concrete input: one non-polygonal relation yields a
null multipolygon table and a non-null multilinestring table. -/
theorem claim_C9_null_attribute_tables_witness :
    ∃ o, get_osm_relations [⟨7, false, [(2, "")], []⟩] [] [] [] = .ok o ∧
      o.kv_df_mp = none ∧ o.kv_df_ls ≠ none := by
  obtain ⟨o, h1, h2, h3, _, _⟩ := claim_C9_null_attribute_tables
    [⟨7, false, [(2, "")], []⟩] [] [] []
  refine ⟨o, h1, h2.mpr (by decide), fun hn => absurd (h3.mp hn) (by decide)⟩

/-- C8: argument misuse is rejected before any tracing work begins and the
error result carries no output: `get_osm_ways` errors when the requested
geometry kind is neither POLYGON nor LINESTRING, and (with a valid kind) when
the caller-supplied output collection's size differs from the number of
requested way ids; `get_osm_nodes` errors when the output collection's size
differs from the number of nodes (src/osmdata.cpp lines 319–322 and
387–388; the `Except.error` results carry no geometry or attribute data). -/
theorem claim_C8_argument_misuse (wayListSize : Nat) (way_ids : List Int)
    (ways : List (Int × OneWay)) (nodes : List (Int × Node))
    (k_way k_point : List String) (geom_type : String) (ptListSize : Nat)
    (nds : List (Int × Node)) :
    (¬(geom_type = "POLYGON" ∨ geom_type = "LINESTRING") →
      get_osm_ways wayListSize way_ids ways nodes k_way geom_type =
        .error "geom_type must be POLYGON or LINESTRING") ∧
    ((geom_type = "POLYGON" ∨ geom_type = "LINESTRING") →
      wayListSize ≠ way_ids.length →
      get_osm_ways wayListSize way_ids ways nodes k_way geom_type =
        .error "ways and IDs must have same lengths") ∧
    (ptListSize ≠ nds.length →
      get_osm_nodes ptListSize nds k_point =
        .error "points must have same size as nodes") := by
  refine ⟨?_, ?_, ?_⟩
  · intro h
    rw [get_osm_ways, if_pos h]
  · intro h1 h2
    rw [get_osm_ways, if_neg (not_not_intro h1), if_pos h2]
  · intro h
    rw [get_osm_nodes, if_pos h]

/-- Witness for C8 at concrete inputs: an unsupported kind, a mismatched way
list, and a mismatched point list are each rejected. -/
theorem claim_C8_argument_misuse_witness :
    get_osm_ways 0 [] [] [] [] "MULTIPOINT" =
      .error "geom_type must be POLYGON or LINESTRING" ∧
    get_osm_ways 1 [] [] [] [] "POLYGON" =
      .error "ways and IDs must have same lengths" ∧
    get_osm_nodes 2 [] [] = .error "points must have same size as nodes" :=
  ⟨(claim_C8_argument_misuse 0 [] [] [] [] [] "MULTIPOINT" 0 []).1 (by decide),
   (claim_C8_argument_misuse 1 [] [] [] [] [] "POLYGON" 0 []).2.1
     (by decide) (by decide),
   (claim_C8_argument_misuse 0 [] [] [] [] [] "POLYGON" 2 []).2.2 (by decide)⟩

theorem mem_condIns (i x : Int) (l : List Int) :
    i ∈ (if l.contains x then l else setIns x l) ↔ i = x ∨ i ∈ l := by
  by_cases h : l.contains x
  · rw [if_pos h]
    constructor
    · exact Or.inr
    · rintro (he | hm)
      · subst he; simpa using h
      · exact hm
  · rw [if_neg h]
    exact mem_setIns i x l

theorem splitWays_mem_aux (ways : List (Int × OneWay))
    (acc : List Int × List Int) (i : Int) :
    (i ∈ (ways.foldl splitStep acc).1 ↔
      i ∈ acc.1 ∨ ∃ wy ∈ ways, wy.1 = i ∧ isClosedWay wy.2 = true) ∧
    (i ∈ (ways.foldl splitStep acc).2 ↔
      i ∈ acc.2 ∨ ∃ wy ∈ ways, wy.1 = i ∧ isClosedWay wy.2 = false) := by
  induction ways generalizing acc with
  | nil => simp
  | cons w rest ih =>
      rw [List.foldl_cons]
      by_cases hc : isClosedWay w.2
      · have hstep : splitStep acc w =
            (if acc.1.contains w.1 then acc.1 else setIns w.1 acc.1, acc.2) := by
          rw [splitStep, if_pos hc]
        rw [hstep]
        constructor
        · rw [(ih _).1]
          simp only [mem_condIns]
          constructor
          · rintro ((he | hm) | ⟨wy, hwy, hid, hcl⟩)
            · exact Or.inr ⟨w, List.mem_cons_self w rest, he.symm, hc⟩
            · exact Or.inl hm
            · exact Or.inr ⟨wy, List.mem_cons_of_mem w hwy, hid, hcl⟩
          · rintro (hm | ⟨wy, hwy, hid, hcl⟩)
            · exact Or.inl (Or.inr hm)
            · rcases List.mem_cons.mp hwy with hw | hw
              · exact Or.inl (Or.inl (by rw [← hid, hw]))
              · exact Or.inr ⟨wy, hw, hid, hcl⟩
        · rw [(ih _).2]
          constructor
          · rintro (hm | ⟨wy, hwy, hid, hcl⟩)
            · exact Or.inl hm
            · exact Or.inr ⟨wy, List.mem_cons_of_mem w hwy, hid, hcl⟩
          · rintro (hm | ⟨wy, hwy, hid, hcl⟩)
            · exact Or.inl hm
            · rcases List.mem_cons.mp hwy with hw | hw
              · rw [hw] at hcl; rw [hcl] at hc; cases hc
              · exact Or.inr ⟨wy, hw, hid, hcl⟩
      · have hstep : splitStep acc w =
            (acc.1, if acc.2.contains w.1 then acc.2 else setIns w.1 acc.2) := by
          rw [splitStep, if_neg hc]
        rw [hstep]
        have hcf : isClosedWay w.2 = false := by
          exact Bool.not_eq_true _ |>.mp hc
        constructor
        · rw [(ih _).1]
          constructor
          · rintro (hm | ⟨wy, hwy, hid, hcl⟩)
            · exact Or.inl hm
            · exact Or.inr ⟨wy, List.mem_cons_of_mem w hwy, hid, hcl⟩
          · rintro (hm | ⟨wy, hwy, hid, hcl⟩)
            · exact Or.inl hm
            · rcases List.mem_cons.mp hwy with hw | hw
              · rw [hw] at hcl; rw [hcl] at hcf; cases hcf
              · exact Or.inr ⟨wy, hw, hid, hcl⟩
        · rw [(ih _).2]
          simp only [mem_condIns]
          constructor
          · rintro ((he | hm) | ⟨wy, hwy, hid, hcl⟩)
            · exact Or.inr ⟨w, List.mem_cons_self w rest, he.symm, hcf⟩
            · exact Or.inl hm
            · exact Or.inr ⟨wy, List.mem_cons_of_mem w hwy, hid, hcl⟩
          · rintro (hm | ⟨wy, hwy, hid, hcl⟩)
            · exact Or.inl (Or.inr hm)
            · rcases List.mem_cons.mp hwy with hw | hw
              · exact Or.inl (Or.inl (by rw [← hid, hw]))
              · exact Or.inr ⟨wy, hw, hid, hcl⟩

theorem condIns_sorted (x : Int) (l : List Int) (h : l.Pairwise (· < ·)) :
    (if l.contains x then l else setIns x l).Pairwise (· < ·) := by
  by_cases hc : l.contains x
  · rwa [if_pos hc]
  · rw [if_neg hc]
    exact setIns_sorted x l h

theorem splitWays_sorted_aux (ways : List (Int × OneWay))
    (acc : List Int × List Int) (h1 : acc.1.Pairwise (· < ·))
    (h2 : acc.2.Pairwise (· < ·)) :
    (ways.foldl splitStep acc).1.Pairwise (· < ·) ∧
    (ways.foldl splitStep acc).2.Pairwise (· < ·) := by
  induction ways generalizing acc with
  | nil => exact ⟨h1, h2⟩
  | cons w rest ih =>
      rw [List.foldl_cons, splitStep]
      by_cases hc : isClosedWay w.2
      · rw [if_pos hc]
        exact ih _ (condIns_sorted _ _ h1) h2
      · rw [if_neg hc]
        exact ih _ h1 (condIns_sorted _ _ h2)

/-- C6: every way whose node-id sequence has first id equal to last id is put
in the polygon way set, and every other way in the linestring way set
(src/osmdata.cpp lines 505–525, the test `nodes.front () == nodes.back ()`);
the two sets partition the set of all way ids; and on node sequences of
length greater than 1 the code's test coincides with the spec's closed-ness
(first id == last id AND length > 1). -/
theorem claim_C6_way_partition (ways : List (Int × OneWay))
    (hnd : (ways.map Prod.fst).Nodup) (_hne : ∀ wy ∈ ways, wy.2.nodes ≠ []) :
    (∀ wy ∈ ways, (wy.1 ∈ (splitWays ways).1 ↔ isClosedWay wy.2 = true) ∧
      (wy.1 ∈ (splitWays ways).2 ↔ isClosedWay wy.2 = false)) ∧
    (∀ i : Int, ¬(i ∈ (splitWays ways).1 ∧ i ∈ (splitWays ways).2)) ∧
    (∀ i : Int,
      (i ∈ (splitWays ways).1 ∨ i ∈ (splitWays ways).2) ↔ i ∈ ways.map Prod.fst) ∧
    (∀ w : OneWay, w.nodes.length > 1 → isClosedWay w = specClosed w) ∧
    (∀ w : OneWay, w.nodes ≠ [] →
      (isClosedWay w = true ↔ w.nodes.head? = w.nodes.getLast?)) := by
  have hinj := List.inj_on_of_nodup_map hnd
  have hm1 : ∀ i, i ∈ (splitWays ways).1 ↔
      ∃ wy ∈ ways, wy.1 = i ∧ isClosedWay wy.2 = true := by
    intro i
    have h := (splitWays_mem_aux ways ([], []) i).1
    simpa [splitWays] using h
  have hm2 : ∀ i, i ∈ (splitWays ways).2 ↔
      ∃ wy ∈ ways, wy.1 = i ∧ isClosedWay wy.2 = false := by
    intro i
    have h := (splitWays_mem_aux ways ([], []) i).2
    simpa [splitWays] using h
  refine ⟨?_, ?_, ?_, ?_, ?_⟩
  · intro wy hwy
    constructor
    · rw [hm1 wy.1]
      constructor
      · rintro ⟨wy2, hwy2, hid, hcl⟩
        have he : wy2 = wy := hinj hwy2 hwy hid
        rw [← he]; exact hcl
      · intro hc
        exact ⟨wy, hwy, rfl, hc⟩
    · rw [hm2 wy.1]
      constructor
      · rintro ⟨wy2, hwy2, hid, hcl⟩
        have he : wy2 = wy := hinj hwy2 hwy hid
        rw [← he]; exact hcl
      · intro hc
        exact ⟨wy, hwy, rfl, hc⟩
  · intro i
    rintro ⟨h1, h2⟩
    obtain ⟨wy, hwy, hid, hcl⟩ := (hm1 i).mp h1
    obtain ⟨wy2, hwy2, hid2, hcl2⟩ := (hm2 i).mp h2
    have he : wy = wy2 := hinj hwy hwy2 (hid.trans hid2.symm)
    rw [he, hcl2] at hcl
    cases hcl
  · intro i
    constructor
    · rintro (h | h)
      · obtain ⟨wy, hwy, hid, _⟩ := (hm1 i).mp h
        exact List.mem_map.mpr ⟨wy, hwy, hid⟩
      · obtain ⟨wy, hwy, hid, _⟩ := (hm2 i).mp h
        exact List.mem_map.mpr ⟨wy, hwy, hid⟩
    · intro h
      obtain ⟨wy, hwy, hid⟩ := List.mem_map.mp h
      by_cases hc : isClosedWay wy.2
      · exact Or.inl ((hm1 i).mpr ⟨wy, hwy, hid, hc⟩)
      · exact Or.inr ((hm2 i).mpr ⟨wy, hwy, hid, Bool.not_eq_true _ |>.mp hc⟩)
  · intro w h
    simp [specClosed, isClosedWay, h]
  · intro w _
    simp [isClosedWay]

/-- Witness for C6 at a concrete input: the closed way 1 lands in the polygon
set and the open way 2 in the linestring set. -/
theorem claim_C6_way_partition_witness :
    ((1 : Int) ∈ (splitWays [(1, ⟨[5, 6, 5], []⟩), (2, ⟨[5, 6], []⟩)]).1 ↔
      isClosedWay ⟨[5, 6, 5], []⟩ = true) ∧
    ((2 : Int) ∈ (splitWays [(1, ⟨[5, 6, 5], []⟩), (2, ⟨[5, 6], []⟩)]).2 ↔
      isClosedWay ⟨[5, 6], []⟩ = false) :=
  ⟨((claim_C6_way_partition [(1, ⟨[5, 6, 5], []⟩), (2, ⟨[5, 6], []⟩)]
      (by decide) (by decide)).1 (1, ⟨[5, 6, 5], []⟩) (by decide)).1,
   ((claim_C6_way_partition [(1, ⟨[5, 6, 5], []⟩), (2, ⟨[5, 6], []⟩)]
      (by decide) (by decide)).1 (2, ⟨[5, 6], []⟩) (by decide)).2⟩

theorem mapIns_keys_mem {β : Type} (m : List (Int × β)) (e : Int × β) (a : Int)
    (ha : a ∈ (mapIns m e).map Prod.fst) : a = e.1 ∨ a ∈ m.map Prod.fst := by
  induction m with
  | nil => simpa [mapIns] using ha
  | cons p ps ih =>
      by_cases h1 : e.1 < p.1
      · simp only [mapIns, if_pos h1] at ha
        simpa using ha
      · by_cases h2 : e.1 = p.1
        · simp only [mapIns, if_neg h1, if_pos h2] at ha
          exact Or.inr ha
        · simp only [mapIns, if_neg h1, if_neg h2, List.map_cons,
            List.mem_cons] at ha
          rcases ha with ha | ha
          · exact Or.inr (by simp [ha])
          · rcases ih ha with ha | ha
            · exact Or.inl ha
            · exact Or.inr (List.mem_cons_of_mem _ ha)

theorem mapIns_sorted {β : Type} (m : List (Int × β)) (e : Int × β)
    (h : (m.map Prod.fst).Pairwise (· < ·)) :
    ((mapIns m e).map Prod.fst).Pairwise (· < ·) := by
  induction m with
  | nil => simp [mapIns]
  | cons p ps ih =>
      rw [List.map_cons, List.pairwise_cons] at h
      obtain ⟨hp, hps⟩ := h
      by_cases h1 : e.1 < p.1
      · rw [mapIns, if_pos h1, List.map_cons, List.map_cons]
        refine List.pairwise_cons.mpr ⟨?_, ?_⟩
        · intro b hb
          rcases List.mem_cons.mp hb with hb | hb
          · rw [hb]; exact h1
          · exact lt_trans h1 (hp b hb)
        · exact List.pairwise_cons.mpr ⟨hp, hps⟩
      · by_cases h2 : e.1 = p.1
        · rw [mapIns, if_neg h1, if_pos h2, List.map_cons]
          exact List.pairwise_cons.mpr ⟨hp, hps⟩
        · have hpe : p.1 < e.1 :=
            lt_of_le_of_ne (le_of_not_lt h1) (fun hh => h2 hh.symm)
          rw [mapIns, if_neg h1, if_neg h2, List.map_cons]
          refine List.pairwise_cons.mpr ⟨?_, ih hps⟩
          intro b hb
          rcases mapIns_keys_mem ps e b hb with hb | hb
          · rw [hb]; exact hpe
          · exact hp b hb

theorem buildMap_sorted {β : Type} (doc : List (Int × β)) :
    ((buildMap doc).map Prod.fst).Pairwise (· < ·) := by
  have haux : ∀ (l : List (Int × β)) (acc : List (Int × β)),
      (acc.map Prod.fst).Pairwise (· < ·) →
      ((l.foldl mapIns acc).map Prod.fst).Pairwise (· < ·) := by
    intro l
    induction l with
    | nil => exact fun acc h => h
    | cons e rest ih =>
        intro acc h
        rw [List.foldl_cons]
        exact ih (mapIns acc e) (mapIns_sorted acc e h)
  exact haux doc [] (by simp)

theorem get_osm_ways_valid_eq (wayListSize : Nat) (way_ids : List Int)
    (ways : List (Int × OneWay)) (nodes : List (Int × Node))
    (k_way : List String) (geom_type : String)
    (hg : geom_type = "POLYGON" ∨ geom_type = "LINESTRING")
    (hs : wayListSize = way_ids.length) :
    get_osm_ways wayListSize way_ids ways nodes k_way geom_type =
      .ok ⟨way_ids.map (fun w => toString w),
        way_ids.map (fun w => trace_way_nmat ways nodes w),
        way_ids.map (fun w => get_value_mat_way k_way ways w), geom_type⟩ := by
  rw [get_osm_ways, if_neg (not_not_intro hg), if_neg (not_not_intro hs)]

theorem rcpp_osmdata_sf_ways_eq (ways : List (Int × OneWay))
    (nodes : List (Int × Node)) (k_way : List String) :
    rcpp_osmdata_sf_ways ways nodes k_way = .ok
      (⟨(splitWays ways).1.map (fun w => toString w),
        (splitWays ways).1.map (fun w => trace_way_nmat ways nodes w),
        (splitWays ways).1.map (fun w => get_value_mat_way k_way ways w),
        "POLYGON"⟩,
       ⟨(splitWays ways).2.map (fun w => toString w),
        (splitWays ways).2.map (fun w => trace_way_nmat ways nodes w),
        (splitWays ways).2.map (fun w => get_value_mat_way k_way ways w),
        "LINESTRING"⟩) := by
  rw [rcpp_osmdata_sf_ways]
  rw [get_osm_ways_valid_eq _ _ _ _ _ _ (Or.inl rfl) rfl]
  rw [get_osm_ways_valid_eq _ _ _ _ _ _ (Or.inr rfl) rfl]
  rfl

theorem get_osm_nodes_names (ptListSize : Nat) (nodes : List (Int × Node))
    (k_point : List String) (o : NodesOut)
    (ho : get_osm_nodes ptListSize nodes k_point = .ok o) :
    o.ptnames = nodes.map (fun n => toString n.1) := by
  rw [get_osm_nodes] at ho
  by_cases h : ptListSize ≠ nodes.length
  · rw [if_pos h] at ho
    cases ho
  · rw [if_neg h] at ho
    cases hm : nodes.mapM (fun n => buildNodeRow k_point n.2.key_val) with
    | error e =>
        rw [hm] at ho
        cases ho
    | ok rows =>
        rw [hm] at ho
        have := Except.ok.inj ho
        rw [← this]

/-- C10: the emitted row labels of the point collection and of each way
collection are the entity ids rendered as strings, taken from id sequences
that are strictly increasing: the ordered node map iterates ascending
regardless of the order its entries appeared in the source document, and the
two way-id sets produced by the partition loop are ascending
(src/osmdata.cpp lines 331–333, 396–403, 506–515). -/
theorem claim_C10_ascending_output_order (doc : List (Int × Node))
    (k_point : List String) (ways : List (Int × OneWay))
    (nodes : List (Int × Node)) (k_way : List String) :
    (∀ o : NodesOut,
      get_osm_nodes (buildMap doc).length (buildMap doc) k_point = .ok o →
      o.ptnames = (buildMap doc).map (fun n => toString n.1)) ∧
    ((buildMap doc).map Prod.fst).Pairwise (· < ·) ∧
    (∀ po lo : WaysOut, rcpp_osmdata_sf_ways ways nodes k_way = .ok (po, lo) →
      po.waynames = (splitWays ways).1.map (fun w => toString w) ∧
      lo.waynames = (splitWays ways).2.map (fun w => toString w)) ∧
    (splitWays ways).1.Pairwise (· < ·) ∧
    (splitWays ways).2.Pairwise (· < ·) := by
  refine ⟨?_, buildMap_sorted doc, ?_, ?_, ?_⟩
  · intro o ho
    exact get_osm_nodes_names _ _ _ o ho
  · intro po lo hpw
    have he := (rcpp_osmdata_sf_ways_eq ways nodes k_way).symm.trans hpw
    have hp := (Prod.mk.injEq _ _ _ _).mp (Except.ok.inj he)
    exact ⟨by rw [← hp.1], by rw [← hp.2]⟩
  · exact (splitWays_sorted_aux ways ([], []) (by simp) (by simp)).1
  · exact (splitWays_sorted_aux ways ([], []) (by simp) (by simp)).2

/-- Witness for C10 at concrete inputs: nodes supplied in descending document
order come out ascending, and the way partition emits ascending id labels. -/
theorem claim_C10_ascending_output_order_witness :
    get_osm_nodes
        (buildMap [((5 : Int), (⟨0, 0, []⟩ : Node)), (3, ⟨1, 1, []⟩)]).length
        (buildMap [((5 : Int), (⟨0, 0, []⟩ : Node)), (3, ⟨1, 1, []⟩)]) [] =
      .ok ⟨[(1, 1), (0, 0)], ["3", "5"], [[], []]⟩ ∧
    (⟨[(1, 1), (0, 0)], ["3", "5"], [[], []]⟩ : NodesOut).ptnames =
      (buildMap [((5 : Int), (⟨0, 0, []⟩ : Node)), (3, ⟨1, 1, []⟩)]).map
        (fun n => toString n.1) ∧
    ((buildMap [((5 : Int), (⟨0, 0, []⟩ : Node)), (3, ⟨1, 1, []⟩)]).map
      Prod.fst).Pairwise (· < ·) ∧
    (∃ po lo : WaysOut,
      rcpp_osmdata_sf_ways [((2 : Int), (⟨[4, 4], []⟩ : OneWay)),
        (1, ⟨[4, 5], []⟩)] [] [] = .ok (po, lo) ∧
      po.waynames = ["2"] ∧ lo.waynames = ["1"]) := by
  have h := claim_C10_ascending_output_order
    [((5 : Int), (⟨0, 0, []⟩ : Node)), (3, ⟨1, 1, []⟩)] []
    [((2 : Int), (⟨[4, 4], []⟩ : OneWay)), (1, ⟨[4, 5], []⟩)] [] []
  have he : get_osm_nodes
      (buildMap [((5 : Int), (⟨0, 0, []⟩ : Node)), (3, ⟨1, 1, []⟩)]).length
      (buildMap [((5 : Int), (⟨0, 0, []⟩ : Node)), (3, ⟨1, 1, []⟩)]) [] =
      .ok ⟨[(1, 1), (0, 0)], ["3", "5"], [[], []]⟩ := by rfl
  have hw : rcpp_osmdata_sf_ways [((2 : Int), (⟨[4, 4], []⟩ : OneWay)),
      (1, ⟨[4, 5], []⟩)] [] [] =
      .ok (⟨["2"], [[]], [[]], "POLYGON"⟩, ⟨["1"], [[]], [[]], "LINESTRING"⟩) := by
    rfl
  obtain ⟨hwa, hwb⟩ := h.2.2.1 _ _ hw
  refine ⟨he, h.1 _ he, h.2.1, ⟨_, _, hw, ?_, ?_⟩⟩
  · rw [hwa]; decide
  · rw [hwb]; decide
